import Mathlib

/-!
Verification of the Xirea on-device inference session manager
(`app/src/main/cpp/llama_jni.cpp`) against its natural-language
specification.  The C++ source is shallowly embedded: pure helpers become
Lean functions, the process-global mutable state becomes explicit state
records, the external llama backend becomes an oracle parameter, and the
lock-free generation/cancellation protocol becomes a small-step transition
system over the three atomics (`g_is_generating`, `g_generation_id`,
`g_stop_generation_id`).
-/

namespace Xirea

/-! ## Constants from llama_jni.cpp (lines 37-51) -/

def kLowEndContext : Int := 512
def kMidContext : Int := 1024
def kMidHighContext : Int := 1536
def kHighContext : Int := 2048

def kLowEndBatch : Int := 128
def kHighBatch : Int := 256

def kLowEndMaxThreads : Int := 4
def kMaxThreads : Int := 8

def kLowEndMaxGenTokens : Int := 256
def kMidMaxGenTokens : Int := 512
def kHighMaxGenTokens : Int := 768

def kMaxParams : Nat := 7 * 1000 * 1000 * 1000

/-! ## Device configuration (lines 59-104)

`applyDeviceConfig` in the source writes the four globals
`g_context_size`, `g_batch_size`, `g_max_gen_tokens`, `g_n_threads` from
the total memory (MB) and the logical core count; we package the four
values as a `ResourcePlan`.  `getTotalMemoryMB` is an OS read, so the
memory amount is a parameter here; its failure default (4096) does not
matter for the claims, which quantify over the memory value. -/

structure ResourcePlan where
  context_size : Int
  batch_size : Int
  thread_count : Int
  max_gen_tokens : Int
deriving DecidableEq, Repr

/-- Embeds `getThreadCount` (lines 67-72): `hardware_concurrency` is the
`cpuCores` parameter, normalized to 1 when nonpositive, then capped. -/
def getThreadCount (cpuCores : Int) (lowEnd : Bool) : Int :=
  let c := if cpuCores ≤ 0 then 1 else cpuCores
  let cap := if lowEnd then kLowEndMaxThreads else kMaxThreads
  min c cap

/-- Embeds `applyDeviceConfig` (lines 74-104) as a pure function of the
device profile `(totalMB, cpuCores)`. -/
def applyDeviceConfig (totalMB cpuCores : Int) : ResourcePlan :=
  let lowEnd := totalMB ≤ 3072
  if totalMB ≤ 3072 then
    { context_size := kLowEndContext, batch_size := kLowEndBatch,
      thread_count := getThreadCount cpuCores lowEnd,
      max_gen_tokens := kLowEndMaxGenTokens }
  else if totalMB ≤ 4096 then
    { context_size := kMidContext, batch_size := kHighBatch,
      thread_count := getThreadCount cpuCores lowEnd,
      max_gen_tokens := 384 }
  else if totalMB ≤ 6144 then
    { context_size := kMidHighContext, batch_size := kHighBatch,
      thread_count := getThreadCount cpuCores lowEnd,
      max_gen_tokens := kMidMaxGenTokens }
  else if totalMB ≤ 8192 then
    { context_size := kHighContext, batch_size := kHighBatch,
      thread_count := getThreadCount cpuCores lowEnd,
      max_gen_tokens := kMidMaxGenTokens }
  else
    { context_size := kHighContext, batch_size := kHighBatch,
      thread_count := getThreadCount cpuCores lowEnd,
      max_gen_tokens := kHighMaxGenTokens }

/-! ## Max-token clamp (lines 382-384) -/

/-- Embeds the clamp in `generate`:
`if (maxTokens > g_max_gen_tokens) maxTokens = g_max_gen_tokens;`
`if (maxTokens < 1) maxTokens = 1;`. -/
def clampMaxTokens (maxTokens maxGen : Int) : Int :=
  let m := if maxTokens > maxGen then maxGen else maxTokens
  if m < 1 then 1 else m

/-! ## Prompt truncation (lines 414-420) -/

/-- Embeds the truncation in `generate`: the `erase` of the first
`n_prompt - max_prompt` tokens is `List.drop` of that many elements. -/
def truncatePrompt (tokens : List Int) (ctxSize maxTokens : Int) : List Int :=
  let nPrompt : Int := tokens.length
  let maxPrompt : Int := max 0 (ctxSize - maxTokens - 16)
  if nPrompt > maxPrompt then
    tokens.drop (nPrompt - maxPrompt).toNat
  else
    tokens

/-! ## Batch buffer (lines 129-144)

`llama_batch_init(g_batch_size, 0, 1)` allocates `g_batch_size` slots;
`g_batch.n_tokens` is the cursor.  We model the occupied region as a list
of entries, so `n_tokens` is the list length and the index `idx` used by
the unchecked slot writes in `batch_add` is the length before the append. -/

structure BatchEntry where
  token : Int
  pos : Int
  logits : Bool
deriving DecidableEq, Repr

/-- Embeds `batch_clear` (lines 132-134): resets the cursor to 0. -/
def batch_clear : List BatchEntry := []

/-- Embeds `batch_add` (lines 136-144): writes one entry at index
`n_tokens` and increments the cursor. -/
def batch_add (b : List BatchEntry) (token pos : Int) (logits : Bool) :
    List BatchEntry :=
  b ++ [{ token := token, pos := pos, logits := logits }]

/-! ## Prompt evaluation loop (lines 422-444)

Each iteration of the while loop clears the batch, fills it with
`n_batch = min(g_batch_size, n_prompt - n_processed)` tokens at positions
`n_processed, …, n_processed + n_batch - 1` (requesting logits exactly at
global position `n_prompt - 1`) and submits it to `llama_decode`.  We
model the sequence of submitted batches.  The loop also stops when the
stop counter matches the local generation id; `stopAt k` tells whether
that check fires before chunk number `k` (and `decodeOk` whether the
decode of chunk `k` succeeds; a decode failure returns from `generate`,
ending the loop). -/

/-- One chunk: the inner for loop of lines 429-434 starting from a cleared
batch. -/
def fillChunk (tokens : List Int) (nPrompt nProcessed nBatch : Nat) :
    List BatchEntry :=
  (List.range nBatch).foldl
    (fun b i =>
      batch_add b (tokens.getD (nProcessed + i) 0)
        ((nProcessed : Int) + (i : Int))
        (decide ((nProcessed : Int) + (i : Int) = (nPrompt : Int) - 1)))
    batch_clear

/-- The while loop of lines 425-444, returning the list of batches that
are submitted to `llama_decode`, in order.  `fuel` bounds the recursion;
the loop makes progress only while `nProcessed < nPrompt`, so
`fuel = nPrompt` iterations always suffice when `batchSize ≥ 1`. -/
def prefillBatches (tokens : List Int) (batchSize nPrompt : Nat)
    (stopAt decodeOk : Nat → Bool) :
    Nat → Nat → Nat → List (List BatchEntry)
  | _, _, 0 => []
  | nProcessed, k, fuel + 1 =>
    if nProcessed < nPrompt ∧ stopAt k = false then
      let nBatch := min batchSize (nPrompt - nProcessed)
      let chunk := fillChunk tokens nPrompt nProcessed nBatch
      if decodeOk k then
        chunk :: prefillBatches tokens batchSize nPrompt stopAt decodeOk
          (nProcessed + nBatch) (k + 1) fuel
      else
        [chunk]
    else
      []

/-! ## Token generation loop (lines 454-503)

The decode loop samples a token, exits on end-of-generation, converts the
token to text, streams it, submits a one-token batch and advances.  The
per-iteration backend outcomes are an oracle `out`; the loop body only
continues on `ok`. -/

inductive StepOutcome where
  | stopped
  | eog
  | decodeFail
  | ok
deriving DecidableEq, Repr

/-- Embeds the while loop of lines 464-503 as a count of generated tokens:
iteration `i` observes outcome `out i` (`stopped` models the
`g_stop_generation_id.load() == local_id` test in the loop condition being
true, `eog` the EOS break, `decodeFail` the decode break; `ok` runs the
whole body, incrementing `n_cur` and `n_generated`). -/
def genLoopCount (out : Nat → StepOutcome) (maxTokens ctxSize : Int) :
    Int → Int → Nat → Nat → Int
  | _, nGen, _, 0 => nGen
  | nCur, nGen, i, fuel + 1 =>
    if nGen < maxTokens ∧ nCur < ctxSize ∧ out i ≠ .stopped then
      match out i with
      | .eog => nGen
      | .decodeFail => nGen
      | _ => genLoopCount out maxTokens ctxSize (nCur + 1) (nGen + 1) (i + 1) fuel
    else
      nGen

/-- The single-token batch submitted by the decode loop (lines 492-494):
a clear followed by one add with logits requested. -/
def decodeStepBatch (token nCur : Int) : List BatchEntry :=
  batch_add batch_clear token nCur true

/-! ## Buffer-too-small sentinel and retry (lines 109-127 and 474-490)

The llama backend writes results into a caller-sized buffer and returns
the negated required length when the buffer is too small.  `toks` (resp.
`piece`) is the full result the backend would produce; a call with
capacity `cap` yields the count and the data when it fits, or the negated
required length and nothing when it does not. -/

/-- Oracle model of `llama_tokenize` at buffer capacity `cap`. -/
def llamaTokenize (toks : List Int) (cap : Int) : Int × List Int :=
  if (toks.length : Int) ≤ cap then ((toks.length : Int), toks)
  else (-(toks.length : Int), [])

/-- Oracle model of `llama_token_to_piece` at buffer capacity `cap`. -/
def llamaTokenToPiece (piece : List Char) (cap : Int) : Int × List Char :=
  if (piece.length : Int) ≤ cap then ((piece.length : Int), piece)
  else (-(piece.length : Int), [])

/-- Embeds `tokenize_prompt` (lines 109-127): first call at capacity
`text.length + 32`; on a negative return, resize to the hinted size and
retry once; a second negative return yields the empty vector. -/
def tokenize_prompt (textLen : Nat) (toks : List Int) : List Int :=
  let nTokens : Int := (textLen : Int) + 32
  let first := llamaTokenize toks nTokens
  let result := if first.1 < 0 then llamaTokenize toks (-first.1) else first
  if result.1 < 0 then [] else result.2

/-- Number of backend tokenize calls `tokenize_prompt` performs. -/
def tokenizeCallCount (textLen : Nat) (toks : List Int) : Nat :=
  if (llamaTokenize toks ((textLen : Int) + 32)).1 < 0 then 2 else 1

/-- Embeds lines 474-490: `token_str` starts at 128 chars and the call
passes capacity `size - 1`; on a negative return `n` the string is resized
to `-n + 1` and the call retried at capacity `size - 1 = -n`.  Returns the
fragment appended to the response (the append and callback run only when
the final count is positive). -/
def tokenToPieceFragment (piece : List Char) : List Char :=
  let size0 : Int := 128
  let first := llamaTokenToPiece piece (size0 - 1)
  let result :=
    if first.1 < 0 then llamaTokenToPiece piece (-first.1 + 1 - 1) else first
  if result.1 > 0 then result.2 else []

/-- Number of backend token-to-piece calls per generated token. -/
def pieceCallCount (piece : List Char) : Nat :=
  if (llamaTokenToPiece piece (128 - 1)).1 < 0 then 2 else 1

/-! ## Model session state (lines 21-35)

The handles (`g_model`, `g_ctx`, `g_sampler`, `g_vocab`,
`g_batch_initialized`) are modelled by presence booleans; the derived
configuration ints are carried verbatim. -/

structure Session where
  model : Bool
  ctx : Bool
  sampler : Bool
  vocab : Bool
  batch_initialized : Bool
  context_size : Int
  batch_size : Int
  n_threads : Int
  max_gen_tokens : Int
deriving DecidableEq, Repr

/-- Embeds `isModelLoaded` (lines 339-345). -/
def isModelLoaded (s : Session) : Bool :=
  s.model && s.ctx

/-- Embeds `getContextSize` (lines 540-546). -/
def getContextSize (s : Session) : Int :=
  s.context_size

/-- Environment for one `loadModel` call: the results the llama backend
and the OS would return.  `desc` is the model description string
(lowercased and searched for quantization markers at lines 263-277). -/
structure LoadEnv where
  totalMB : Int
  cpuCores : Int
  modelLoads : Bool
  hasVocab : Bool
  modelTrainCtx : Int
  ctxCreates : Bool
  nParams : Nat
  desc : List Char
deriving DecidableEq, Repr

/-- The quantization gate of lines 263-277: the description, lowercased,
must contain one of the markers "q4", "q5", "quantized". -/
def descAccepted (desc : List Char) : Bool :=
  let d := desc.map Char.toLower
  decide ("q4".toList <:+: d) || decide ("q5".toList <:+: d) ||
    decide ("quantized".toList <:+: d)

/-- Embeds `loadModel` (lines 166-299).  Returns the new global state and
the jboolean result.  The teardown of lines 176-192 clears all five
handles before anything is attempted; every failure path frees exactly
what the source frees. -/
def loadModel (s0 : Session) (env : LoadEnv) (nCtx : Int) : Session × Bool :=
  let s1 : Session :=
    { s0 with batch_initialized := false, sampler := false, ctx := false,
              model := false, vocab := false }
  let plan := applyDeviceConfig env.totalMB env.cpuCores
  let s2 : Session :=
    { s1 with context_size := plan.context_size,
              batch_size := plan.batch_size,
              n_threads := plan.thread_count,
              max_gen_tokens := plan.max_gen_tokens }
  if env.modelLoads = false then
    (s2, false)
  else
    let s3 : Session := { s2 with model := true }
    if env.hasVocab = false then
      ({ s3 with model := false }, false)
    else
      let s4 : Session := { s3 with vocab := true }
      let cappedCtx : Int := min nCtx (min s4.context_size env.modelTrainCtx)
      let s5 : Session := { s4 with context_size := cappedCtx }
      if env.ctxCreates = false then
        ({ s5 with model := false, vocab := false }, false)
      else
        let s6 : Session := { s5 with ctx := true }
        if kMaxParams < env.nParams then
          ({ s6 with ctx := false, model := false, vocab := false }, false)
        else if descAccepted env.desc = false then
          ({ s6 with ctx := false, model := false, vocab := false }, false)
        else
          ({ s6 with batch_initialized := true, sampler := true }, true)

/-- Embeds the session part of `unloadModel` (lines 304-337): the five
handles are cleared (and the underlying resources freed); nothing else in
the global state is written.  The `stop_id` store on line 309 is part of
the concurrency model below. -/
def unloadModel (s : Session) : Session :=
  { s with vocab := false, sampler := false, ctx := false, model := false,
           batch_initialized := false }

/-! ## Concurrency model of the generation protocol (lines 25-27, 347-353,
366-375, 425-464, 504-509)

The three process-wide atomics are `g_is_generating`, `g_generation_id`
and `g_stop_generation_id`.  A `generate` call runs through phases, each
phase boundary being one atomic access of the source:

* `idle` — not inside `generate`;
* `entered` — the `g_is_generating.exchange(true)` of line 370 returned
  `false`, the call proceeds; the exchange with a `true` result returns
  the `AlreadyGeneratingError` string immediately without any further
  write;
* `minted id` — the `fetch_add` of line 374 produced `local_id = id`;
* `looping id fuel` — the `store(0)` of line 375 is done; the call is in
  the prefill loop (line 425) or the decode loop (line 464), both of
  which test `g_stop_generation_id.load() == local_id` at every iteration
  boundary (including the standalone test at line 446); `fuel` is the
  number of loop iterations of work left before the call ends for its own
  reasons (prompt consumed and token budget, EOS or a decode error —
  also the early-return error paths of lines 391-403, with `fuel = 0`);
* `exiting` — the loops are done, `g_is_generating = false`
  (lines 393, 401, 438, 448, 507) is about to be stored.

`stopGeneration` (lines 347-353) and the first line of `unloadModel`
(line 309) are the single atomic-to-atomic store
`g_stop_generation_id.store(g_generation_id.load())`, the `stop` action. -/

inductive Phase where
  | idle
  | entered (fuel : Nat)
  | minted (id : Nat) (fuel : Nat)
  | looping (id : Nat) (fuel : Nat)
  | exiting
deriving DecidableEq, Repr

structure Sys where
  is_generating : Bool
  generation_id : Nat
  stop_id : Nat
  threads : Nat → Phase

/-- The atomic exchange gate at lines 370-372: if a generation is in
progress the call fails (result `false`) with the state untouched;
otherwise the flag is taken and the caller proceeds. -/
def tryBeginGenerate (s : Sys) (i : Nat) (fuel : Nat) : Sys × Bool :=
  if s.is_generating then (s, false)
  else ({ s with is_generating := true,
                 threads := Function.update s.threads i (.entered fuel) },
        true)

inductive Action where
  | enter (i : Nat) (fuel : Nat)
  | advance (i : Nat)
  | stop
deriving DecidableEq, Repr

/-- One interleaved step of the system: a thread attempts `generate`
entry, an in-call thread performs its next phase transition, or some
thread performs the `stop` store. -/
def stepA (s : Sys) : Action → Sys
  | .stop => { s with stop_id := s.generation_id }
  | .enter i fuel =>
    match s.threads i with
    | .idle => (tryBeginGenerate s i fuel).1
    | _ => s
  | .advance i =>
    match s.threads i with
    | .entered fuel =>
      { s with generation_id := s.generation_id + 1,
               threads :=
                 Function.update s.threads i
                   (.minted (s.generation_id + 1) fuel) }
    | .minted id fuel =>
      { s with stop_id := 0,
               threads := Function.update s.threads i (.looping id fuel) }
    | .looping id fuel =>
      if s.stop_id = id then
        { s with threads := Function.update s.threads i .exiting }
      else
        match fuel with
        | 0 => { s with threads := Function.update s.threads i .exiting }
        | f + 1 =>
          { s with threads := Function.update s.threads i (.looping id f) }
    | .exiting =>
      { s with is_generating := false,
               threads := Function.update s.threads i .idle }
    | .idle => s

/-- Initial state of the process: statics of lines 25-27, no thread inside
`generate`. -/
def initSys : Sys :=
  { is_generating := false, generation_id := 0, stop_id := 0,
    threads := fun _ => .idle }

/-- Execution of a sequence of interleaved steps. -/
def runA (s : Sys) (acts : List Action) : Sys :=
  acts.foldl stepA s

/-- A thread phase other than `idle` means the thread is inside a
`generate` call that passed the exchange gate. -/
def Phase.isActive : Phase → Bool
  | .idle => false
  | _ => true

/-- System invariant: the flag being clear means no thread is inside; at
most one thread is inside at a time; and a thread that has minted its
`local_id` (or is looping on it) holds the current `generation_id`. -/
def SysInv (s : Sys) : Prop :=
  (s.is_generating = false → ∀ i, s.threads i = .idle)
  ∧ (∀ i j, (s.threads i).isActive = true → (s.threads j).isActive = true →
      i = j)
  ∧ (∀ i id fuel, s.threads i = .minted id fuel → id = s.generation_id)
  ∧ (∀ i id fuel, s.threads i = .looping id fuel → id = s.generation_id)

theorem sysInv_init : SysInv initSys := by
  refine ⟨fun _ i => rfl, fun i j hi _ => ?_, fun i id fuel h => ?_,
    fun i id fuel h => ?_⟩ <;> simp [initSys, Phase.isActive] at *

theorem Phase.not_active_eq_idle (p : Phase) (h : p.isActive = false) :
    p = .idle := by
  cases p <;> first | rfl | simp [Phase.isActive] at h

/-- Auxiliary: any state whose threads are all idle except possibly slot
`i` satisfies the invariant, provided the new phase of slot `i` carries
the right id when minted or looping and the flag is only cleared when the
slot goes idle. -/
theorem sysInv_update (s : Sys) (i : Nat) (ph : Phase) (b : Bool)
    (g st : Nat)
    (honly : ∀ j, j ≠ i → s.threads j = .idle)
    (hbidle : b = false → ph = .idle)
    (hm : ∀ id fuel, ph = .minted id fuel → id = g)
    (hl : ∀ id fuel, ph = .looping id fuel → id = g) :
    SysInv (Sys.mk b g st (Function.update s.threads i ph)) := by
  refine ⟨?_, ?_, ?_, ?_⟩
  · intro hb j
    show Function.update s.threads i ph j = .idle
    by_cases hji : j = i
    · rw [hji, Function.update_same]
      exact hbidle hb
    · rw [Function.update_noteq hji]
      exact honly j hji
  · intro j k hj hk
    replace hj : (Function.update s.threads i ph j).isActive = true := hj
    replace hk : (Function.update s.threads i ph k).isActive = true := hk
    by_cases hji : j = i
    · by_cases hki : k = i
      · rw [hji, hki]
      · rw [Function.update_noteq hki, honly k hki] at hk
        simp [Phase.isActive] at hk
    · rw [Function.update_noteq hji, honly j hji] at hj
      simp [Phase.isActive] at hj
  · intro j id fuel hj
    replace hj : Function.update s.threads i ph j = .minted id fuel := hj
    by_cases hji : j = i
    · rw [hji, Function.update_same] at hj
      exact hm id fuel hj
    · rw [Function.update_noteq hji, honly j hji] at hj
      exact absurd hj (by simp)
  · intro j id fuel hj
    replace hj : Function.update s.threads i ph j = .looping id fuel := hj
    by_cases hji : j = i
    · rw [hji, Function.update_same] at hj
      exact hl id fuel hj
    · rw [Function.update_noteq hji, honly j hji] at hj
      exact absurd hj (by simp)

theorem sysInv_step (s : Sys) (a : Action) (h : SysInv s) :
    SysInv (stepA s a) := by
  obtain ⟨h1, h2, h3, h4⟩ := h
  cases a with
  | stop => exact ⟨h1, h2, h3, h4⟩
  | enter i fuel =>
    show SysInv (match s.threads i with
      | .idle => (tryBeginGenerate s i fuel).1
      | _ => s)
    cases hph : s.threads i with
    | idle =>
      by_cases hg : s.is_generating
      · simp only [tryBeginGenerate, if_pos hg]
        exact ⟨h1, h2, h3, h4⟩
      · simp only [tryBeginGenerate, if_neg hg]
        have hallidle := h1 (Bool.of_not_eq_true hg)
        exact sysInv_update s i (.entered fuel) true s.generation_id
          s.stop_id (fun j _ => hallidle j) (by intro hb; cases hb)
          (by intro id' f' hj; cases hj) (by intro id' f' hj; cases hj)
    | entered fuel' => exact ⟨h1, h2, h3, h4⟩
    | minted id fuel' => exact ⟨h1, h2, h3, h4⟩
    | looping id fuel' => exact ⟨h1, h2, h3, h4⟩
    | exiting => exact ⟨h1, h2, h3, h4⟩
  | advance i =>
    show SysInv (match s.threads i with
      | .entered fuel =>
        { s with generation_id := s.generation_id + 1,
                 threads :=
                   Function.update s.threads i
                     (.minted (s.generation_id + 1) fuel) }
      | .minted id fuel =>
        { s with stop_id := 0,
                 threads := Function.update s.threads i (.looping id fuel) }
      | .looping id fuel =>
        if s.stop_id = id then
          { s with threads := Function.update s.threads i .exiting }
        else
          match fuel with
          | 0 => { s with threads := Function.update s.threads i .exiting }
          | f + 1 =>
            { s with threads := Function.update s.threads i (.looping id f) }
      | .exiting =>
        { s with is_generating := false,
                 threads := Function.update s.threads i .idle }
      | .idle => s)
    cases hph : s.threads i with
    | idle => exact ⟨h1, h2, h3, h4⟩
    | entered fuel =>
      have hact : (s.threads i).isActive = true := by rw [hph]; rfl
      have honly : ∀ j, j ≠ i → s.threads j = .idle := by
        intro j hj
        cases hb : (s.threads j).isActive with
        | false => exact Phase.not_active_eq_idle _ hb
        | true => exact absurd (h2 j i hb hact) hj
      have hgen : s.is_generating = true := by
        cases hgb : s.is_generating with
        | true => rfl
        | false =>
          have := h1 hgb i
          rw [hph] at this
          cases this
      refine hgen ▸ sysInv_update s i (.minted (s.generation_id + 1) fuel)
        s.is_generating (s.generation_id + 1) s.stop_id honly
        ?_ ?_ ?_
      · intro hb
        rw [hgen] at hb
        cases hb
      · intro id' f' hj
        cases hj
        rfl
      · intro id' f' hj
        cases hj
    | minted id fuel =>
      have hact : (s.threads i).isActive = true := by rw [hph]; rfl
      have honly : ∀ j, j ≠ i → s.threads j = .idle := by
        intro j hj
        cases hb : (s.threads j).isActive with
        | false => exact Phase.not_active_eq_idle _ hb
        | true => exact absurd (h2 j i hb hact) hj
      have hgen : s.is_generating = true := by
        cases hgb : s.is_generating with
        | true => rfl
        | false =>
          have := h1 hgb i
          rw [hph] at this
          cases this
      have hid : id = s.generation_id := h3 i id fuel hph
      refine sysInv_update s i (.looping id fuel)
        s.is_generating s.generation_id 0 honly
        ?_ ?_ ?_
      · intro hb
        rw [hgen] at hb
        cases hb
      · intro id' f' hj
        cases hj
      · intro id' f' hj
        cases hj
        exact hid
    | looping id fuel =>
      have hact : (s.threads i).isActive = true := by rw [hph]; rfl
      have honly : ∀ j, j ≠ i → s.threads j = .idle := by
        intro j hj
        cases hb : (s.threads j).isActive with
        | false => exact Phase.not_active_eq_idle _ hb
        | true => exact absurd (h2 j i hb hact) hj
      have hgen : s.is_generating = true := by
        cases hgb : s.is_generating with
        | true => rfl
        | false =>
          have := h1 hgb i
          rw [hph] at this
          cases this
      have hid : id = s.generation_id := h4 i id fuel hph
      have hexit : SysInv (Sys.mk s.is_generating s.generation_id s.stop_id
          (Function.update s.threads i .exiting)) := by
        refine sysInv_update s i .exiting s.is_generating s.generation_id
          s.stop_id honly ?_ ?_ ?_
        · intro hb
          rw [hgen] at hb
          cases hb
        · intro id' f' hj
          cases hj
        · intro id' f' hj
          cases hj
      by_cases hstop : s.stop_id = id
      · simp only [if_pos hstop]
        exact hexit
      · simp only [if_neg hstop]
        cases fuel with
        | zero => exact hexit
        | succ f =>
          refine sysInv_update s i (.looping id f) s.is_generating
            s.generation_id s.stop_id honly ?_ ?_ ?_
          · intro hb
            rw [hgen] at hb
            cases hb
          · intro id' f' hj
            cases hj
          · intro id' f' hj
            cases hj
            exact hid
    | exiting =>
      have hact : (s.threads i).isActive = true := by rw [hph]; rfl
      have honly : ∀ j, j ≠ i → s.threads j = .idle := by
        intro j hj
        cases hb : (s.threads j).isActive with
        | false => exact Phase.not_active_eq_idle _ hb
        | true => exact absurd (h2 j i hb hact) hj
      refine sysInv_update s i .idle false s.generation_id s.stop_id honly
        ?_ ?_ ?_
      · intro _
        rfl
      · intro id' f' hj
        cases hj
      · intro id' f' hj
        cases hj

theorem sysInv_runA (s : Sys) (acts : List Action) (h : SysInv s) :
    SysInv (runA s acts) := by
  induction acts generalizing s with
  | nil => exact h
  | cons a rest ih =>
    exact ih (stepA s a) (sysInv_step s a h)

theorem sysInv_reachable (acts : List Action) : SysInv (runA initSys acts) :=
  sysInv_runA initSys acts sysInv_init

/-! ## Claims -/

/-- C4: for every device profile, the resource plan equals the fixed
ordered tier table — total memory ≤3072 MB gives context 512, batch 128,
max tokens 256; ≤4096 gives 1024/256/384; ≤6144 gives 1536/256/512;
≤8192 gives 2048/256/512; otherwise 2048/256/768 — and the thread count
equals `min(logical_cores, cap)` where the cap is 4 for the lowest tier
and 8 otherwise.  The function is a pure Lean function of
`(totalMB, cpuCores)`, hence deterministic. -/
theorem claim_C4_resource_plan_table (totalMB cpuCores : Int)
    (hcores : 1 ≤ cpuCores) :
    (totalMB ≤ 3072 →
      applyDeviceConfig totalMB cpuCores =
        { context_size := 512, batch_size := 128,
          thread_count := min cpuCores 4, max_gen_tokens := 256 })
    ∧ (3072 < totalMB → totalMB ≤ 4096 →
      applyDeviceConfig totalMB cpuCores =
        { context_size := 1024, batch_size := 256,
          thread_count := min cpuCores 8, max_gen_tokens := 384 })
    ∧ (4096 < totalMB → totalMB ≤ 6144 →
      applyDeviceConfig totalMB cpuCores =
        { context_size := 1536, batch_size := 256,
          thread_count := min cpuCores 8, max_gen_tokens := 512 })
    ∧ (6144 < totalMB → totalMB ≤ 8192 →
      applyDeviceConfig totalMB cpuCores =
        { context_size := 2048, batch_size := 256,
          thread_count := min cpuCores 8, max_gen_tokens := 512 })
    ∧ (8192 < totalMB →
      applyDeviceConfig totalMB cpuCores =
        { context_size := 2048, batch_size := 256,
          thread_count := min cpuCores 8, max_gen_tokens := 768 }) := by
  have hpos : ¬(cpuCores ≤ 0) := by omega
  refine ⟨?_, ?_, ?_, ?_, ?_⟩
  · intro h1
    simp [applyDeviceConfig, getThreadCount, h1, hpos, kLowEndContext,
      kLowEndBatch, kLowEndMaxThreads, kLowEndMaxGenTokens]
  · intro h1 h2
    have n1 : ¬(totalMB ≤ 3072) := by omega
    simp [applyDeviceConfig, getThreadCount, n1, h2, hpos, kMidContext,
      kHighBatch, kMaxThreads]
  · intro h1 h2
    have n1 : ¬(totalMB ≤ 3072) := by omega
    have n2 : ¬(totalMB ≤ 4096) := by omega
    simp [applyDeviceConfig, getThreadCount, n1, n2, h2, hpos,
      kMidHighContext, kHighBatch, kMaxThreads, kMidMaxGenTokens]
  · intro h1 h2
    have n1 : ¬(totalMB ≤ 3072) := by omega
    have n2 : ¬(totalMB ≤ 4096) := by omega
    have n3 : ¬(totalMB ≤ 6144) := by omega
    simp [applyDeviceConfig, getThreadCount, n1, n2, n3, h2, hpos,
      kHighContext, kHighBatch, kMaxThreads, kMidMaxGenTokens]
  · intro h1
    have n1 : ¬(totalMB ≤ 3072) := by omega
    have n2 : ¬(totalMB ≤ 4096) := by omega
    have n3 : ¬(totalMB ≤ 6144) := by omega
    have n4 : ¬(totalMB ≤ 8192) := by omega
    simp [applyDeviceConfig, getThreadCount, n1, n2, n3, n4, hpos,
      kHighContext, kHighBatch, kMaxThreads, kHighMaxGenTokens]

/-- Witness for C4 at a concrete device profile (4 GB, 6 cores). -/
theorem claim_C4_witness :
    applyDeviceConfig 4000 6 =
      { context_size := 1024, batch_size := 256,
        thread_count := min 6 8, max_gen_tokens := 384 } :=
  (claim_C4_resource_plan_table 4000 6 (by decide)).2.1 (by decide) (by decide)

theorem genLoopCount_le (out : Nat → StepOutcome) (m ctxSize : Int) :
    ∀ (fuel : Nat) (nCur nGen : Int) (i : Nat),
      genLoopCount out m ctxSize nCur nGen i fuel ≤ max nGen m := by
  intro fuel
  induction fuel with
  | zero =>
    intro nCur nGen i
    simp [genLoopCount]
  | succ f ih =>
    intro nCur nGen i
    show (if nGen < m ∧ nCur < ctxSize ∧ out i ≠ .stopped then
        match out i with
        | .eog => nGen
        | .decodeFail => nGen
        | _ => genLoopCount out m ctxSize (nCur + 1) (nGen + 1) (i + 1) f
      else nGen) ≤ max nGen m
    by_cases hc : nGen < m ∧ nCur < ctxSize ∧ out i ≠ .stopped
    · rw [if_pos hc]
      cases hout : out i with
      | eog => exact le_max_left _ _
      | decodeFail => exact le_max_left _ _
      | stopped => exact absurd hout hc.2.2
      | ok =>
        calc genLoopCount out m ctxSize (nCur + 1) (nGen + 1) (i + 1) f
            ≤ max (nGen + 1) m := ih (nCur + 1) (nGen + 1) (i + 1)
          _ ≤ max nGen m := by
              have : nGen + 1 ≤ m := hc.1
              omega
    · rw [if_neg hc]
      exact le_max_left _ _

/-- C5: in every generate call the requested `max_tokens` is clamped to
`[1, plan.max_generated_tokens]` (lines 383-384), and the decode loop
(lines 464-503) increments the generated-token count at most once per
iteration under the guard `n_generated < maxTokens`, so the number of
generated tokens never exceeds the clamped value, hence never exceeds the
device plan's cap `maxGen`. -/
theorem claim_C5_max_tokens_clamped (requested maxGen : Int)
    (hcap : 1 ≤ maxGen) :
    1 ≤ clampMaxTokens requested maxGen
    ∧ clampMaxTokens requested maxGen ≤ maxGen
    ∧ (1 ≤ requested → requested ≤ maxGen →
        clampMaxTokens requested maxGen = requested)
    ∧ ∀ (out : Nat → StepOutcome) (ctxSize nCur : Int) (i fuel : Nat),
        genLoopCount out (clampMaxTokens requested maxGen) ctxSize
          nCur 0 i fuel ≤ maxGen := by
  have hclamp : 1 ≤ clampMaxTokens requested maxGen
      ∧ clampMaxTokens requested maxGen ≤ maxGen := by
    simp only [clampMaxTokens]
    by_cases h1 : requested > maxGen
    · rw [if_pos h1]
      by_cases h2 : maxGen < 1
      · rw [if_pos h2]; omega
      · rw [if_neg h2]; omega
    · rw [if_neg h1]
      by_cases h2 : requested < 1
      · rw [if_pos h2]; omega
      · rw [if_neg h2]; omega
  refine ⟨hclamp.1, hclamp.2, ?_, ?_⟩
  · intro hlo hhi
    simp only [clampMaxTokens]
    rw [if_neg (by omega : ¬requested > maxGen), if_neg (by omega : ¬requested < 1)]
  · intro out ctxSize nCur i fuel
    calc genLoopCount out (clampMaxTokens requested maxGen) ctxSize
          nCur 0 i fuel
        ≤ max 0 (clampMaxTokens requested maxGen) :=
          genLoopCount_le out _ ctxSize fuel nCur 0 i
      _ ≤ maxGen := by
          have := hclamp.1
          have := hclamp.2
          omega

/-- Witness for C5: `generate("Hello", maxTokens=1000)` on a plan capping
`max_generated_tokens` at 256 clamps to 256, and a run of the decode loop
generates at most 256 tokens. -/
theorem claim_C5_witness :
    1 ≤ clampMaxTokens 1000 256
    ∧ clampMaxTokens 1000 256 ≤ 256
    ∧ genLoopCount (fun _ => .ok) (clampMaxTokens 1000 256) 2048
        5 0 0 300 ≤ 256 :=
  ⟨(claim_C5_max_tokens_clamped 1000 256 (by decide)).1,
   (claim_C5_max_tokens_clamped 1000 256 (by decide)).2.1,
   (claim_C5_max_tokens_clamped 1000 256 (by decide)).2.2.2
     (fun _ => .ok) 2048 5 0 300⟩

/-- C6: tokenized prompts longer than `context_size - max_tokens - 16`
(with `max_tokens` already clamped) are truncated to exactly the trailing
`context_size - max_tokens - 16` tokens — the removed part is a prefix —
while prompts at or under the bound are evaluated unchanged. -/
theorem claim_C6_prompt_truncation (tokens : List Int)
    (ctxSize maxTokens : Int) :
    ((max 0 (ctxSize - maxTokens - 16)).toNat < tokens.length →
      truncatePrompt tokens ctxSize maxTokens
        = tokens.drop
            (tokens.length - (max 0 (ctxSize - maxTokens - 16)).toNat)
      ∧ (truncatePrompt tokens ctxSize maxTokens).length
        = (max 0 (ctxSize - maxTokens - 16)).toNat)
    ∧ (tokens.length ≤ (max 0 (ctxSize - maxTokens - 16)).toNat →
      truncatePrompt tokens ctxSize maxTokens = tokens) := by
  have hM : (0 : Int) ≤ max 0 (ctxSize - maxTokens - 16) := le_max_left _ _
  constructor
  · intro hlong
    have hgt : (tokens.length : Int) > max 0 (ctxSize - maxTokens - 16) := by
      omega
    have hdrop : ((tokens.length : Int)
        - max 0 (ctxSize - maxTokens - 16)).toNat
        = tokens.length - (max 0 (ctxSize - maxTokens - 16)).toNat := by
      omega
    constructor
    · simp only [truncatePrompt, if_pos hgt, hdrop]
    · simp only [truncatePrompt, if_pos hgt, hdrop, List.length_drop]
      omega
  · intro hshort
    have hle : ¬((tokens.length : Int) > max 0 (ctxSize - maxTokens - 16)) := by
      omega
    simp only [truncatePrompt, if_neg hle]

/-- Witness for C6: with context 20 and one requested token the bound is
3, so a five-token prompt keeps its trailing three tokens, and a
three-token prompt is unchanged. -/
theorem claim_C6_witness :
    (truncatePrompt [10, 20, 30, 40, 50] 20 1 = [30, 40, 50]
      ∧ (truncatePrompt [10, 20, 30, 40, 50] 20 1).length = 3)
    ∧ truncatePrompt [10, 20, 30] 20 1 = [10, 20, 30] :=
  ⟨(claim_C6_prompt_truncation [10, 20, 30, 40, 50] 20 1).1 (by decide),
   (claim_C6_prompt_truncation [10, 20, 30] 20 1).2 (by decide)⟩

/-- C10: `unloadModel` clears only the session handles (model, context,
vocabulary, sampler, batch) and leaves the derived configuration values
unchanged, so `getContextSize` still returns the previous session's
capped context size afterwards (and the stored batch size, thread count
and max-token cap keep their last-load values). -/
theorem claim_C10_unload_keeps_config (s : Session) :
    (unloadModel s).model = false
    ∧ (unloadModel s).ctx = false
    ∧ (unloadModel s).vocab = false
    ∧ (unloadModel s).sampler = false
    ∧ (unloadModel s).batch_initialized = false
    ∧ isModelLoaded (unloadModel s) = false
    ∧ (unloadModel s).context_size = s.context_size
    ∧ (unloadModel s).batch_size = s.batch_size
    ∧ (unloadModel s).n_threads = s.n_threads
    ∧ (unloadModel s).max_gen_tokens = s.max_gen_tokens
    ∧ getContextSize (unloadModel s) = getContextSize s := by
  simp [unloadModel, isModelLoaded, getContextSize]

/-- C3: `loadModel` is all-or-nothing.  On success the session is fully
loaded (model, vocab, context, sampler, batch all present) and
`isModelLoaded` returns true; any failure path (backend load failure,
missing vocabulary, context creation failure, parameter count above 7e9,
quantization description with none of the accepted markers) leaves every
handle absent and returns false. -/
theorem claim_C3_load_all_or_nothing (s0 : Session) (env : LoadEnv)
    (nCtx : Int) :
    ((loadModel s0 env nCtx).2 = true →
      (loadModel s0 env nCtx).1.model = true
      ∧ (loadModel s0 env nCtx).1.vocab = true
      ∧ (loadModel s0 env nCtx).1.ctx = true
      ∧ (loadModel s0 env nCtx).1.sampler = true
      ∧ (loadModel s0 env nCtx).1.batch_initialized = true
      ∧ isModelLoaded (loadModel s0 env nCtx).1 = true)
    ∧ ((loadModel s0 env nCtx).2 = false →
      (loadModel s0 env nCtx).1.model = false
      ∧ (loadModel s0 env nCtx).1.vocab = false
      ∧ (loadModel s0 env nCtx).1.ctx = false
      ∧ (loadModel s0 env nCtx).1.sampler = false
      ∧ (loadModel s0 env nCtx).1.batch_initialized = false
      ∧ isModelLoaded (loadModel s0 env nCtx).1 = false) := by
  simp only [loadModel, isModelLoaded]
  by_cases h1 : env.modelLoads = false
  · simp [h1]
  · simp only [h1, if_false]
    by_cases h2 : env.hasVocab = false
    · simp [h2]
    · simp only [h2, if_false]
      by_cases h3 : env.ctxCreates = false
      · simp [h3]
      · simp only [h3, if_false]
        by_cases h4 : kMaxParams < env.nParams
        · simp [h4]
        · simp only [h4, if_false]
          by_cases h5 : descAccepted env.desc = false
          · simp [h5]
          · simp [h5]

/-- Witness for C3: a 1.1B-parameter Q4 model loads fully, and an F16
description (no accepted marker) fails with every handle absent. -/
theorem claim_C3_witness :
    (loadModel
        { model := false, ctx := false, sampler := false, vocab := false,
          batch_initialized := false, context_size := 1024,
          batch_size := 128, n_threads := 4, max_gen_tokens := 256 }
        { totalMB := 4096, cpuCores := 8, modelLoads := true,
          hasVocab := true, modelTrainCtx := 2048, ctxCreates := true,
          nParams := 1100000000, desc := "tinyllama 1.1B Q4_K_M".toList }
        2048).2 = true
    ∧ isModelLoaded (loadModel
        { model := false, ctx := false, sampler := false, vocab := false,
          batch_initialized := false, context_size := 1024,
          batch_size := 128, n_threads := 4, max_gen_tokens := 256 }
        { totalMB := 4096, cpuCores := 8, modelLoads := true,
          hasVocab := true, modelTrainCtx := 2048, ctxCreates := true,
          nParams := 1100000000, desc := "tinyllama 1.1B Q4_K_M".toList }
        2048).1 = true
    ∧ (loadModel
        { model := false, ctx := false, sampler := false, vocab := false,
          batch_initialized := false, context_size := 1024,
          batch_size := 128, n_threads := 4, max_gen_tokens := 256 }
        { totalMB := 4096, cpuCores := 8, modelLoads := true,
          hasVocab := true, modelTrainCtx := 2048, ctxCreates := true,
          nParams := 1100000000, desc := "llama 1B F16".toList }
        2048).2 = false
    ∧ isModelLoaded (loadModel
        { model := false, ctx := false, sampler := false, vocab := false,
          batch_initialized := false, context_size := 1024,
          batch_size := 128, n_threads := 4, max_gen_tokens := 256 }
        { totalMB := 4096, cpuCores := 8, modelLoads := true,
          hasVocab := true, modelTrainCtx := 2048, ctxCreates := true,
          nParams := 1100000000, desc := "llama 1B F16".toList }
        2048).1 = false := by
  have hok := (claim_C3_load_all_or_nothing
    { model := false, ctx := false, sampler := false, vocab := false,
      batch_initialized := false, context_size := 1024,
      batch_size := 128, n_threads := 4, max_gen_tokens := 256 }
    { totalMB := 4096, cpuCores := 8, modelLoads := true,
      hasVocab := true, modelTrainCtx := 2048, ctxCreates := true,
      nParams := 1100000000, desc := "tinyllama 1.1B Q4_K_M".toList }
    2048).1 (by decide)
  have hbad := (claim_C3_load_all_or_nothing
    { model := false, ctx := false, sampler := false, vocab := false,
      batch_initialized := false, context_size := 1024,
      batch_size := 128, n_threads := 4, max_gen_tokens := 256 }
    { totalMB := 4096, cpuCores := 8, modelLoads := true,
      hasVocab := true, modelTrainCtx := 2048, ctxCreates := true,
      nParams := 1100000000, desc := "llama 1B F16".toList }
    2048).2 (by decide)
  exact ⟨by decide, hok.2.2.2.2.2, by decide, hbad.2.2.2.2.2⟩

/-- C8: for tokenization and token-to-text conversion the negative
length-needed sentinel triggers exactly one resize to the hinted size
followed by one retry, never more than two backend calls, and the
delivered result is always the complete backend output — the retry never
silently truncates (`tokenize_prompt` returns the full token sequence and
`tokenToPieceFragment` the full text fragment, in every case). -/
theorem claim_C8_sentinel_retry (textLen : Nat) (toks : List Int)
    (piece : List Char) :
    tokenize_prompt textLen toks = toks
    ∧ tokenizeCallCount textLen toks
      = (if ((textLen : Int) + 32) < (toks.length : Int) then 2 else 1)
    ∧ tokenToPieceFragment piece = piece
    ∧ pieceCallCount piece
      = (if (127 : Int) < (piece.length : Int) then 2 else 1) := by
  have hlen0 : ¬((toks.length : Int) < 0) := by omega
  have hplen0 : ¬((piece.length : Int) < 0) := by omega
  refine ⟨?_, ?_, ?_, ?_⟩
  · simp only [tokenize_prompt, llamaTokenize]
    by_cases h1 : (toks.length : Int) ≤ (textLen : Int) + 32
    · simp [h1, hlen0]
    · have hneg : -(toks.length : Int) < 0 := by omega
      have hfit : (toks.length : Int) ≤ -(-(toks.length : Int)) := by omega
      simp [h1, hneg, hfit, hlen0]
  · simp only [tokenizeCallCount, llamaTokenize]
    by_cases h1 : (toks.length : Int) ≤ (textLen : Int) + 32
    · have h2 : ¬((textLen : Int) + 32 < (toks.length : Int)) := by omega
      simp [h1, h2, hlen0]
    · have h2 : (textLen : Int) + 32 < (toks.length : Int) := by omega
      have hneg : -(toks.length : Int) < 0 := by omega
      simp [h1, h2, hneg]
  · simp only [tokenToPieceFragment, llamaTokenToPiece]
    by_cases h1 : piece.length ≤ 127
    · by_cases h2 : (0 : Int) < (piece.length : Int)
      · simp [h1, h2, hplen0]
      · have : piece.length = 0 := by omega
        simp [h1, h2, hplen0, List.eq_nil_of_length_eq_zero this]
    · have hneg : -(piece.length : Int) < 0 := by omega
      have hfit : (piece.length : Int) ≤ -(-(piece.length : Int)) + 1 - 1 := by
        omega
      have hpos : (0 : Int) < (piece.length : Int) := by omega
      simp [h1, hneg, hfit, hpos]
  · simp only [pieceCallCount, llamaTokenToPiece]
    by_cases h1 : piece.length ≤ 127
    · have h2 : ¬((127 : Int) < (piece.length : Int)) := by
        omega
      have h2n : ¬(127 < piece.length) := by omega
      simp [h1, h2, h2n, hplen0]
    · have h2 : (127 : Int) < (piece.length : Int) := by omega
      have h2n : 127 < piece.length := by omega
      have hneg : -(piece.length : Int) < 0 := by omega
      simp [h1, h2, h2n, hneg]

/-- The batch entry the prompt-evaluation loop produces for global prompt
position `p`: logits are requested exactly at the final prompt position. -/
def promptEntry (tokens : List Int) (nPrompt p : Nat) : BatchEntry :=
  { token := tokens.getD p 0, pos := (p : Int),
    logits := decide ((p : Int) = (nPrompt : Int) - 1) }

theorem fillChunk_eq (tokens : List Int) (nPrompt nProcessed : Nat) :
    ∀ nBatch, fillChunk tokens nPrompt nProcessed nBatch
      = (List.range' nProcessed nBatch).map (promptEntry tokens nPrompt) := by
  intro nBatch
  induction nBatch with
  | zero => rfl
  | succ n ih =>
    have hstep : fillChunk tokens nPrompt nProcessed (n + 1)
        = batch_add (fillChunk tokens nPrompt nProcessed n)
            (tokens.getD (nProcessed + n) 0)
            ((nProcessed : Int) + (n : Int))
            (decide ((nProcessed : Int) + (n : Int) = (nPrompt : Int) - 1)) := by
      show (List.range (n + 1)).foldl _ batch_clear = _
      rw [List.range_succ, List.foldl_append]
      rfl
    rw [hstep, ih, List.range'_1_concat, List.map_append]
    simp [batch_add, promptEntry, Nat.cast_add]

theorem fillChunk_length (tokens : List Int) (nPrompt nProcessed nBatch : Nat) :
    (fillChunk tokens nPrompt nProcessed nBatch).length = nBatch := by
  rw [fillChunk_eq]
  simp

theorem fillChunk_logits (tokens : List Int) (nPrompt nProcessed nBatch : Nat) :
    ∀ e ∈ fillChunk tokens nPrompt nProcessed nBatch,
      e.logits = true ↔ e.pos = (nPrompt : Int) - 1 := by
  rw [fillChunk_eq]
  intro e he
  obtain ⟨p, _, rfl⟩ := List.mem_map.mp he
  simp only [promptEntry, decide_eq_true_eq]

theorem mem_prefillBatches (tokens : List Int) (batchSize nPrompt : Nat)
    (stopAt decodeOk : Nat → Bool) :
    ∀ (fuel nProcessed k : Nat) (chunk : List BatchEntry),
      chunk ∈ prefillBatches tokens batchSize nPrompt stopAt decodeOk
        nProcessed k fuel →
      ∃ nProc, nProc < nPrompt
        ∧ chunk = fillChunk tokens nPrompt nProc
            (min batchSize (nPrompt - nProc)) := by
  intro fuel
  induction fuel with
  | zero =>
    intro nProcessed k chunk hmem
    simp [prefillBatches] at hmem
  | succ f ih =>
    intro nProcessed k chunk hmem
    rw [show prefillBatches tokens batchSize nPrompt stopAt decodeOk
        nProcessed k (f + 1)
        = if nProcessed < nPrompt ∧ stopAt k = false then
            if decodeOk k then
              fillChunk tokens nPrompt nProcessed
                  (min batchSize (nPrompt - nProcessed))
                :: prefillBatches tokens batchSize nPrompt stopAt decodeOk
                  (nProcessed + min batchSize (nPrompt - nProcessed)) (k + 1) f
            else
              [fillChunk tokens nPrompt nProcessed
                (min batchSize (nPrompt - nProcessed))]
          else [] from rfl] at hmem
    by_cases hc : nProcessed < nPrompt ∧ stopAt k = false
    · rw [if_pos hc] at hmem
      by_cases hd : decodeOk k
      · rw [if_pos hd] at hmem
        rcases List.mem_cons.mp hmem with hhead | htail
        · exact ⟨nProcessed, hc.1, hhead⟩
        · exact ih _ _ chunk htail
      · rw [if_neg hd] at hmem
        rcases List.mem_singleton.mp hmem with rfl
        exact ⟨nProcessed, hc.1, rfl⟩
    · rw [if_neg hc] at hmem
      simp at hmem

theorem prefill_flatten_covers (tokens : List Int) (batchSize nPrompt : Nat)
    (hbs : 1 ≤ batchSize) :
    ∀ (fuel nProcessed k : Nat), nPrompt - nProcessed ≤ fuel →
      (prefillBatches tokens batchSize nPrompt (fun _ => false)
          (fun _ => true) nProcessed k fuel).flatten
        = (List.range' nProcessed (nPrompt - nProcessed)).map
            (promptEntry tokens nPrompt) := by
  intro fuel
  induction fuel with
  | zero =>
    intro nProcessed k hle
    have h0 : nPrompt - nProcessed = 0 := by omega
    simp [prefillBatches, h0]
  | succ f ih =>
    intro nProcessed k hle
    by_cases hc : nProcessed < nPrompt
    · have hcond : nProcessed < nPrompt ∧ (fun _ : Nat => false) k = false :=
        ⟨hc, rfl⟩
      rw [show prefillBatches tokens batchSize nPrompt (fun _ => false)
          (fun _ => true) nProcessed k (f + 1)
          = fillChunk tokens nPrompt nProcessed
              (min batchSize (nPrompt - nProcessed))
            :: prefillBatches tokens batchSize nPrompt (fun _ => false)
              (fun _ => true)
              (nProcessed + min batchSize (nPrompt - nProcessed)) (k + 1) f
        from by rw [show prefillBatches tokens batchSize nPrompt
              (fun _ => false) (fun _ => true) nProcessed k (f + 1)
            = if nProcessed < nPrompt ∧ (fun _ : Nat => false) k = false then
                if (fun _ : Nat => true) k then
                  fillChunk tokens nPrompt nProcessed
                      (min batchSize (nPrompt - nProcessed))
                    :: prefillBatches tokens batchSize nPrompt (fun _ => false)
                      (fun _ => true)
                      (nProcessed + min batchSize (nPrompt - nProcessed))
                      (k + 1) f
                else [fillChunk tokens nPrompt nProcessed
                  (min batchSize (nPrompt - nProcessed))]
              else [] from rfl, if_pos hcond, if_pos rfl]]
      set nBatch := min batchSize (nPrompt - nProcessed) with hnb
      have hnb1 : 1 ≤ nBatch := by
        rw [hnb]
        omega
      have hnble : nBatch ≤ nPrompt - nProcessed := by
        rw [hnb]
        omega
      rw [List.flatten_cons, ih (nProcessed + nBatch) (k + 1) (by omega),
        fillChunk_eq, ← List.map_append]
      have harr : List.range' nProcessed nBatch
          ++ List.range' (nProcessed + nBatch)
              (nPrompt - (nProcessed + nBatch))
          = List.range' nProcessed (nPrompt - nProcessed) := by
        have h2 := List.range'_append nProcessed nBatch
          (nPrompt - (nProcessed + nBatch)) 1
        simp only [one_mul] at h2
        rw [h2]
        congr 1
        omega
      rw [harr]
    · have h0 : nPrompt - nProcessed = 0 := by omega
      have hcond : ¬(nProcessed < nPrompt ∧ (fun _ : Nat => false) k = false) := by
        simp [hc]
      rw [show prefillBatches tokens batchSize nPrompt (fun _ => false)
          (fun _ => true) nProcessed k (f + 1)
          = if nProcessed < nPrompt ∧ (fun _ : Nat => false) k = false then
              if (fun _ : Nat => true) k then
                fillChunk tokens nPrompt nProcessed
                    (min batchSize (nPrompt - nProcessed))
                  :: prefillBatches tokens batchSize nPrompt (fun _ => false)
                    (fun _ => true)
                    (nProcessed + min batchSize (nPrompt - nProcessed))
                    (k + 1) f
              else [fillChunk tokens nPrompt nProcessed
                (min batchSize (nPrompt - nProcessed))]
            else [] from rfl, if_neg hcond]
      simp [h0]

/-- C7: during prompt evaluation the prompt is submitted in chunks of at
most `batch_size` tokens, every submitted batch is built by the add loop
from a cleared batch (`fillChunk` starts at `batch_clear`), the
want-logits flag is set exactly on the token at global position
`n_prompt - 1` (the final token of the final chunk) and on no other
prompt token, and an uninterrupted run submits exactly the whole token
sequence in order. -/
theorem claim_C7_chunked_prompt_evaluation (tokens : List Int)
    (batchSize : Nat) (stopAt decodeOk : Nat → Bool)
    (fuel nProcessed k : Nat) :
    (∀ chunk ∈ prefillBatches tokens batchSize tokens.length stopAt decodeOk
        nProcessed k fuel,
      chunk.length ≤ batchSize
      ∧ (∃ nProc, chunk = fillChunk tokens tokens.length nProc
          (min batchSize (tokens.length - nProc)))
      ∧ ∀ e ∈ chunk, (e.logits = true ↔ e.pos = (tokens.length : Int) - 1))
    ∧ (1 ≤ batchSize → tokens.length ≤ fuel →
      (prefillBatches tokens batchSize tokens.length (fun _ => false)
          (fun _ => true) 0 0 fuel).flatten
        = (List.range' 0 tokens.length).map
            (promptEntry tokens tokens.length)) := by
  constructor
  · intro chunk hmem
    obtain ⟨nProc, _, rfl⟩ := mem_prefillBatches tokens batchSize
      tokens.length stopAt decodeOk fuel nProcessed k chunk hmem
    refine ⟨?_, ⟨nProc, rfl⟩, fillChunk_logits tokens tokens.length nProc _⟩
    rw [fillChunk_length]
    exact min_le_left _ _
  · intro hbs hfuel
    have := prefill_flatten_covers tokens batchSize tokens.length hbs
      fuel 0 0 (by omega)
    simpa using this

/-- Witness for C7 on a seven-token prompt with batch size 3: three
chunks of sizes 3, 3, 1; only the last entry requests logits; their
concatenation is the full prompt. -/
theorem claim_C7_witness :
    (∀ chunk ∈ prefillBatches [1, 2, 3, 4, 5, 6, 7] 3 7
        (fun _ => false) (fun _ => true) 0 0 7,
      chunk.length ≤ 3
      ∧ (∃ nProc, chunk = fillChunk [1, 2, 3, 4, 5, 6, 7] 7 nProc
          (min 3 (7 - nProc)))
      ∧ ∀ e ∈ chunk, (e.logits = true ↔ e.pos = (6 : Int)))
    ∧ (prefillBatches [1, 2, 3, 4, 5, 6, 7] 3 7
        (fun _ => false) (fun _ => true) 0 0 7).flatten
      = (List.range' 0 7).map (promptEntry [1, 2, 3, 4, 5, 6, 7] 7) := by
  have h := claim_C7_chunked_prompt_evaluation [1, 2, 3, 4, 5, 6, 7] 3
    (fun _ => false) (fun _ => true) 7 0 0
  exact ⟨fun chunk hm => by simpa using h.1 chunk hm,
    by simpa using h.2 (by decide) (by decide)⟩

/-- C9: every write performed by `batch_add` stays inside the batch
buffer's `batch_size` slots: each prompt chunk holds at most `batch_size`
entries, the cursor before the j-th add of a chunk equals `j` and is
below `batch_size`, the decode loop adds exactly one entry (at index 0)
after a clear, and every device plan allocates at least 128 slots. -/
theorem claim_C9_batch_writes_in_bounds (tokens : List Int)
    (batchSize : Nat) (stopAt decodeOk : Nat → Bool)
    (fuel nProcessed k : Nat) (hbs : 1 ≤ batchSize) :
    (∀ chunk ∈ prefillBatches tokens batchSize tokens.length stopAt decodeOk
        nProcessed k fuel, chunk.length ≤ batchSize)
    ∧ (∀ nProc j, j < min batchSize (tokens.length - nProc) →
        (fillChunk tokens tokens.length nProc j).length = j ∧ j < batchSize)
    ∧ (∀ token nCur : Int, (decodeStepBatch token nCur).length = 1
        ∧ batch_clear.length < batchSize)
    ∧ (∀ totalMB cpuCores : Int,
        128 ≤ (applyDeviceConfig totalMB cpuCores).batch_size) := by
  refine ⟨?_, ?_, ?_, ?_⟩
  · intro chunk hmem
    obtain ⟨nProc, _, rfl⟩ := mem_prefillBatches tokens batchSize
      tokens.length stopAt decodeOk fuel nProcessed k chunk hmem
    rw [fillChunk_length]
    exact min_le_left _ _
  · intro nProc j hj
    exact ⟨fillChunk_length tokens tokens.length nProc j, by omega⟩
  · intro token nCur
    refine ⟨rfl, ?_⟩
    show 0 < batchSize
    omega
  · intro totalMB cpuCores
    simp only [applyDeviceConfig]
    by_cases h1 : totalMB ≤ 3072
    · simp [h1, kLowEndBatch]
    · by_cases h2 : totalMB ≤ 4096
      · simp [h1, h2, kHighBatch]
      · by_cases h3 : totalMB ≤ 6144
        · simp [h1, h2, h3, kHighBatch]
        · by_cases h4 : totalMB ≤ 8192
          · simp [h1, h2, h3, h4, kHighBatch]
          · simp [h1, h2, h3, h4, kHighBatch]

/-- Witness for C9 with batch size 3 over a seven-token prompt. -/
theorem claim_C9_witness :
    (∀ chunk ∈ prefillBatches [1, 2, 3, 4, 5, 6, 7] 3 7
        (fun _ => false) (fun _ => true) 0 0 7, chunk.length ≤ 3)
    ∧ ((fillChunk [1, 2, 3, 4, 5, 6, 7] 7 0 2).length = 2 ∧ 2 < 3)
    ∧ ((decodeStepBatch 42 7).length = 1 ∧ batch_clear.length < 3)
    ∧ 128 ≤ (applyDeviceConfig 4096 8).batch_size := by
  have h := claim_C9_batch_writes_in_bounds [1, 2, 3, 4, 5, 6, 7] 3
    (fun _ => false) (fun _ => true) 7 0 0 (by decide)
  exact ⟨fun chunk hm => by simpa using h.1 chunk hm,
    by simpa using h.2.1 0 2 (by decide),
    h.2.2.1 42 7, h.2.2.2 4096 8⟩

/-- C1: at most one `generate` call is ever active at a time — in every
reachable state of the interleaved protocol, any two threads past the
atomic exchange gate are the same thread — and when a generation is in
progress, a second `generate` call fails at the exchange (result
`false`, the `AlreadyGeneratingError` return) immediately and leaves the
whole state, including the in-flight generation's, untouched. -/
theorem claim_C1_single_active_generation (acts : List Action)
    (i fuel : Nat) :
    (∀ j k, ((runA initSys acts).threads j).isActive = true →
        ((runA initSys acts).threads k).isActive = true → j = k)
    ∧ ((runA initSys acts).is_generating = true →
        tryBeginGenerate (runA initSys acts) i fuel
          = (runA initSys acts, false)) := by
  obtain ⟨_, h2, _, _⟩ := sysInv_reachable acts
  refine ⟨h2, ?_⟩
  intro hgen
  simp [tryBeginGenerate, hgen]

/-- Witness for C1: after one thread has entered generation, a second
thread's entry attempt fails and changes nothing. -/
theorem claim_C1_witness :
    (0 : Nat) = 0
    ∧ tryBeginGenerate (runA initSys [Action.enter 0 2]) 1 5
      = (runA initSys [Action.enter 0 2], false) :=
  ⟨(claim_C1_single_active_generation [Action.enter 0 2] 1 5).1 0 0
      rfl rfl,
   (claim_C1_single_active_generation [Action.enter 0 2] 1 5).2 rfl⟩

/-- C2: a cancellation issued while generation `id` is inside its prefill
or decode loop sets `stop_id` to exactly `id` (the `stop` action stores
the current `generation_id`), and once `stop_id = id` holds it is never
silently dropped — every possible interleaved step either leaves the
generation looping with the signal still set, or is the generation's own
next loop-boundary check, which observes the signal and exits within
that one iteration (no work transition is taken). -/
theorem claim_C2_cancellation_observed (acts : List Action)
    (i id fuel : Nat)
    (hloop : (runA initSys acts).threads i = .looping id fuel) :
    ((stepA (runA initSys acts) .stop).stop_id = id)
    ∧ ((runA initSys acts).stop_id = id →
        (stepA (runA initSys acts) (.advance i)).threads i = .exiting)
    ∧ (∀ a : Action, (runA initSys acts).stop_id = id →
        (stepA (runA initSys acts) a).threads i = .exiting
        ∨ ((stepA (runA initSys acts) a).threads i = .looping id fuel
            ∧ (stepA (runA initSys acts) a).stop_id = id)) := by
  set s := runA initSys acts with hs
  obtain ⟨h1, h2, _, h4⟩ := sysInv_reachable acts
  rw [← hs] at h1 h2 h4
  have hid : id = s.generation_id := h4 i id fuel hloop
  have hact : (s.threads i).isActive = true := by rw [hloop]; rfl
  have hgen : s.is_generating = true := by
    cases hgb : s.is_generating with
    | true => rfl
    | false =>
      have := h1 hgb i
      rw [hloop] at this
      cases this
  refine ⟨?_, ?_, ?_⟩
  · show s.generation_id = id
    omega
  · intro hstop
    show (match s.threads i with
      | .entered fuel =>
        { s with generation_id := s.generation_id + 1,
                 threads :=
                   Function.update s.threads i
                     (.minted (s.generation_id + 1) fuel) }
      | .minted id fuel =>
        { s with stop_id := 0,
                 threads := Function.update s.threads i (.looping id fuel) }
      | .looping id fuel =>
        if s.stop_id = id then
          { s with threads := Function.update s.threads i .exiting }
        else
          match fuel with
          | 0 => { s with threads := Function.update s.threads i .exiting }
          | f + 1 =>
            { s with threads := Function.update s.threads i (.looping id f) }
      | .exiting =>
        { s with is_generating := false,
                 threads := Function.update s.threads i .idle }
      | .idle => s).threads i = .exiting
    rw [hloop]
    simp only [if_pos hstop]
    exact Function.update_same i Phase.exiting s.threads
  · intro a hstop
    cases a with
    | stop =>
      right
      exact ⟨hloop, by show s.generation_id = id; omega⟩
    | enter j f =>
      right
      show ((match s.threads j with
        | .idle => (tryBeginGenerate s j f).1
        | _ => s).threads i = .looping id fuel
        ∧ (match s.threads j with
        | .idle => (tryBeginGenerate s j f).1
        | _ => s).stop_id = id)
      cases hpj : s.threads j with
      | idle =>
        simp only [tryBeginGenerate, hgen, if_true]
        exact ⟨hloop, hstop⟩
      | entered f' => exact ⟨hloop, hstop⟩
      | minted id' f' => exact ⟨hloop, hstop⟩
      | looping id' f' => exact ⟨hloop, hstop⟩
      | exiting => exact ⟨hloop, hstop⟩
    | advance j =>
      by_cases hji : j = i
      · left
        subst hji
        show (match s.threads j with
          | .entered fuel =>
            { s with generation_id := s.generation_id + 1,
                     threads :=
                       Function.update s.threads j
                         (.minted (s.generation_id + 1) fuel) }
          | .minted id fuel =>
            { s with stop_id := 0,
                     threads :=
                       Function.update s.threads j (.looping id fuel) }
          | .looping id fuel =>
            if s.stop_id = id then
              { s with threads := Function.update s.threads j .exiting }
            else
              match fuel with
              | 0 => { s with threads := Function.update s.threads j .exiting }
              | f + 1 =>
                { s with
                    threads := Function.update s.threads j (.looping id f) }
          | .exiting =>
            { s with is_generating := false,
                     threads := Function.update s.threads j .idle }
          | .idle => s).threads j = .exiting
        rw [hloop]
        simp only [if_pos hstop]
        exact Function.update_same j Phase.exiting s.threads
      · right
        have hj_idle : s.threads j = .idle := by
          cases hb : (s.threads j).isActive with
          | false => exact Phase.not_active_eq_idle _ hb
          | true => exact absurd (h2 j i hb hact) hji
        show ((match s.threads j with
          | .entered fuel =>
            { s with generation_id := s.generation_id + 1,
                     threads :=
                       Function.update s.threads j
                         (.minted (s.generation_id + 1) fuel) }
          | .minted id fuel =>
            { s with stop_id := 0,
                     threads :=
                       Function.update s.threads j (.looping id fuel) }
          | .looping id fuel =>
            if s.stop_id = id then
              { s with threads := Function.update s.threads j .exiting }
            else
              match fuel with
              | 0 =>
                { s with threads := Function.update s.threads j .exiting }
              | f + 1 =>
                { s with
                    threads := Function.update s.threads j (.looping id f) }
          | .exiting =>
            { s with is_generating := false,
                     threads := Function.update s.threads j .idle }
          | .idle => s).threads i = .looping id fuel
          ∧ (match s.threads j with
          | .entered fuel =>
            { s with generation_id := s.generation_id + 1,
                     threads :=
                       Function.update s.threads j
                         (.minted (s.generation_id + 1) fuel) }
          | .minted id fuel =>
            { s with stop_id := 0,
                     threads :=
                       Function.update s.threads j (.looping id fuel) }
          | .looping id fuel =>
            if s.stop_id = id then
              { s with threads := Function.update s.threads j .exiting }
            else
              match fuel with
              | 0 =>
                { s with threads := Function.update s.threads j .exiting }
              | f + 1 =>
                { s with
                    threads := Function.update s.threads j (.looping id f) }
          | .exiting =>
            { s with is_generating := false,
                     threads := Function.update s.threads j .idle }
          | .idle => s).stop_id = id)
        rw [hj_idle]
        exact ⟨hloop, hstop⟩

/-- Witness for C2: thread 0 enters, mints id 1, reaches its loop; a stop
is issued; the generation's next loop-boundary check exits. -/
theorem claim_C2_witness :
    (stepA (runA initSys
        [Action.enter 0 3, Action.advance 0, Action.advance 0, Action.stop])
      (Action.advance 0)).threads 0 = Phase.exiting :=
  (claim_C2_cancellation_observed
    [Action.enter 0 3, Action.advance 0, Action.advance 0, Action.stop]
    0 1 3 rfl).2.1 rfl

end Xirea
